import Mathlib

/-!
Verification of the DocForge state/approval subsystem.

Shallow embedding of the TypeScript sources:
  - `src/state/types.ts`   — data model (`DocForgeState` and friends)
  - `src/state/machine.ts` — step graph and phase-completion policy
  - `src/state/store.ts`   — durable state store and approval ledger
  - `src/utils/hash.ts`    — SHA-256 content hashing
  - `src/utils/validation.ts` — section validation and strict-mode check
  - `src/commands/init.ts` — existence guard of the `init` command

File persistence (`fs/promises`) is modelled by an explicit disk value
threaded through the store operations; `new Date().toISOString()` by an
explicit `now : String` argument.
-/

set_option maxRecDepth 100000

namespace DocForge

/-! ## Data model (src/state/types.ts) -/

/-- `StepId` from src/state/types.ts: all workflow step identifiers. -/
inductive StepId where
  | rfcProblem
  | rfcGoals
  | rfcApproach
  | rfcInterfaces
  | rfcAlternatives
  | rfcComplete
  | planStages
  | planCriteria
  | planComplete
  | rolloutRisks
  | rolloutObservability
  | rolloutProcedures
  | rolloutComplete
  | promptsGenerate
  | complete
  deriving DecidableEq, Repr, Fintype

/-- Workflow phases (the `phase` field of a step definition). -/
inductive Phase where
  | rfc
  | plan
  | rollout
  | prompts
  deriving DecidableEq, Repr

/-- `DocumentType` from src/state/types.ts: `'rfc' | 'plan' | 'rollout'`. -/
inductive DocumentType where
  | rfc
  | plan
  | rollout
  deriving DecidableEq, Repr

/-- `ProjectMetadata` from src/state/types.ts. -/
structure ProjectMetadata where
  name : String
  stack : List String
  constraints : List String
  createdAt : String
  deriving DecidableEq, Repr

/-- `CheckpointResponse` from src/state/types.ts. -/
structure CheckpointResponse where
  stepId : String
  disagreements : Option String
  clarifications : Option String
  missedConstraints : Option String
  respondedAt : String
  deriving DecidableEq, Repr

/-- `Approval` from src/state/types.ts. -/
structure Approval where
  documentType : DocumentType
  contentHash : String
  approvedAt : String
  deriving DecidableEq, Repr

/-- `Stage` from src/state/types.ts. -/
structure Stage where
  id : Nat
  name : String
  deliverables : List String
  dependencies : List String
  acceptanceCriteria : List String
  definitionOfDone : String
  validationNotes : String
  deriving DecidableEq, Repr

/-- Risk severity from src/state/types.ts. -/
inductive Severity where
  | low
  | medium
  | high
  | critical
  deriving DecidableEq, Repr

/-- `Risk` from src/state/types.ts. -/
structure Risk where
  description : String
  severity : Severity
  mitigation : String
  deriving DecidableEq, Repr

/-- The `rfc` sub-object of `DocumentProgress` (all fields optional). -/
structure RfcProgress where
  problem : Option String := none
  goals : Option String := none
  nonGoals : Option String := none
  approach : Option String := none
  interfaces : Option String := none
  alternatives : Option String := none
  openQuestions : Option String := none
  assumptions : Option String := none
  deriving DecidableEq, Repr

/-- The `plan` sub-object of `DocumentProgress`. -/
structure PlanProgress where
  stages : Option (List Stage) := none
  deriving DecidableEq, Repr

/-- The `rollout` sub-object of `DocumentProgress`. -/
structure RolloutProgress where
  risks : Option (List Risk) := none
  observability : Option String := none
  rolloutSteps : Option (List String) := none
  killSwitch : Option String := none
  rollback : Option String := none
  stopConditions : Option (List String) := none
  deriving DecidableEq, Repr

/-- `DocumentProgress` from src/state/types.ts. -/
structure DocumentProgress where
  rfc : RfcProgress
  plan : PlanProgress
  rollout : RolloutProgress
  deriving DecidableEq, Repr

/-- `DocumentHashes` from src/state/types.ts: optional hash per document type. -/
structure DocumentHashes where
  rfc : Option String := none
  plan : Option String := none
  rollout : Option String := none
  deriving DecidableEq, Repr

/-- Read the hash stored for a document type (`documentHashes[documentType]`). -/
def DocumentHashes.get (h : DocumentHashes) : DocumentType → Option String
  | .rfc => h.rfc
  | .plan => h.plan
  | .rollout => h.rollout

/-- Set the hash stored for a document type
    (`state.documentHashes[documentType] = contentHash`). -/
def DocumentHashes.set (h : DocumentHashes) : DocumentType → String → DocumentHashes
  | .rfc, v => { h with rfc := some v }
  | .plan, v => { h with plan := some v }
  | .rollout, v => { h with rollout := some v }

/-- `DocForgeState` from src/state/types.ts: the root aggregate. -/
structure DocForgeState where
  version : Nat
  project : ProjectMetadata
  currentStep : StepId
  checkpointResponses : List CheckpointResponse
  approvals : List Approval
  documentHashes : DocumentHashes
  documentProgress : DocumentProgress
  strictMode : Bool
  deriving DecidableEq, Repr

/-- `createInitialState` from src/state/types.ts. -/
def createInitialState (project : ProjectMetadata) : DocForgeState where
  version := 1
  project := project
  currentStep := .rfcProblem
  checkpointResponses := []
  approvals := []
  documentHashes := {}
  documentProgress := { rfc := {}, plan := {}, rollout := {} }
  strictMode := false

/-! ## Step graph (src/state/machine.ts) -/

/-- `StepDefinition` from src/state/machine.ts. -/
structure StepDefinition where
  id : StepId
  phase : Phase
  label : String
  isCheckpoint : Bool
  next : Option StepId
  deriving DecidableEq, Repr

/-- The `STEPS` lookup table from src/state/machine.ts.  The TypeScript
    `Record<StepId, StepDefinition>` is total over `StepId`, so it is a
    function here; `stepOrder` below records the insertion order used by
    `Object.keys` / `Object.values`. -/
def STEPS : StepId → StepDefinition
  | .rfcProblem =>
      { id := .rfcProblem, phase := .rfc, label := "Problem Statement",
        isCheckpoint := true, next := some .rfcGoals }
  | .rfcGoals =>
      { id := .rfcGoals, phase := .rfc, label := "Goals and Non-Goals",
        isCheckpoint := true, next := some .rfcApproach }
  | .rfcApproach =>
      { id := .rfcApproach, phase := .rfc, label := "Approach",
        isCheckpoint := true, next := some .rfcInterfaces }
  | .rfcInterfaces =>
      { id := .rfcInterfaces, phase := .rfc, label := "Interfaces & Contracts",
        isCheckpoint := true, next := some .rfcAlternatives }
  | .rfcAlternatives =>
      { id := .rfcAlternatives, phase := .rfc, label := "Alternatives & Tradeoffs",
        isCheckpoint := true, next := some .rfcComplete }
  | .rfcComplete =>
      { id := .rfcComplete, phase := .rfc, label := "RFC Complete",
        isCheckpoint := false, next := some .planStages }
  | .planStages =>
      { id := .planStages, phase := .plan, label := "Stage Breakdown",
        isCheckpoint := true, next := some .planCriteria }
  | .planCriteria =>
      { id := .planCriteria, phase := .plan, label := "Acceptance Criteria",
        isCheckpoint := true, next := some .planComplete }
  | .planComplete =>
      { id := .planComplete, phase := .plan, label := "Plan Complete",
        isCheckpoint := false, next := some .rolloutRisks }
  | .rolloutRisks =>
      { id := .rolloutRisks, phase := .rollout, label := "Risk Analysis",
        isCheckpoint := true, next := some .rolloutObservability }
  | .rolloutObservability =>
      { id := .rolloutObservability, phase := .rollout, label := "Observability Plan",
        isCheckpoint := true, next := some .rolloutProcedures }
  | .rolloutProcedures =>
      { id := .rolloutProcedures, phase := .rollout, label := "Rollout & Rollback Procedures",
        isCheckpoint := true, next := some .rolloutComplete }
  | .rolloutComplete =>
      { id := .rolloutComplete, phase := .rollout, label := "Rollout Complete",
        isCheckpoint := false, next := some .promptsGenerate }
  | .promptsGenerate =>
      { id := .promptsGenerate, phase := .prompts, label := "Generate Stage Prompts",
        isCheckpoint := false, next := some .complete }
  | .complete =>
      { id := .complete, phase := .prompts, label := "All Complete",
        isCheckpoint := false, next := none }

/-- Insertion order of the keys of `STEPS` (the order the literal writes them),
    as observed by `Object.keys` / `Object.values`. -/
def stepOrder : List StepId :=
  [.rfcProblem, .rfcGoals, .rfcApproach, .rfcInterfaces, .rfcAlternatives,
   .rfcComplete, .planStages, .planCriteria, .planComplete, .rolloutRisks,
   .rolloutObservability, .rolloutProcedures, .rolloutComplete,
   .promptsGenerate, .complete]

/-- `getStep` from src/state/machine.ts. -/
def getStep (stepId : StepId) : StepDefinition :=
  STEPS stepId

/-- `getNextStep` from src/state/machine.ts. -/
def getNextStep (currentStepId : StepId) : Option StepId :=
  (STEPS currentStepId).next

/-- `isCheckpoint` from src/state/machine.ts. -/
def isCheckpoint (stepId : StepId) : Bool :=
  (STEPS stepId).isCheckpoint

/-- `getPhase` from src/state/machine.ts. -/
def getPhase (stepId : StepId) : Phase :=
  (STEPS stepId).phase

/-- `getStepLabel` from src/state/machine.ts. -/
def getStepLabel (stepId : StepId) : String :=
  (STEPS stepId).label

/-- `advanceStep` from src/state/machine.ts. -/
def advanceStep (state : DocForgeState) : Option StepId :=
  getNextStep state.currentStep

/-- `getPhaseSteps` from src/state/machine.ts (`Object.values(STEPS)` in
    insertion order, filtered by phase). -/
def getPhaseSteps (phase : Phase) : List StepDefinition :=
  (stepOrder.map STEPS).filter (fun step => step.phase = phase)

/-- The `` `${phase}.complete` `` sentinel step computed by `isPhaseComplete`
    (phase is restricted to `'rfc' | 'plan' | 'rollout'` in the source). -/
def completeStepId : DocumentType → StepId
  | .rfc => .rfcComplete
  | .plan => .planComplete
  | .rollout => .rolloutComplete

/-- The fixed `phaseOrder` array of `isPhaseComplete`. -/
def phaseOrder : List Phase := [.rfc, .plan, .rollout, .prompts]

/-- The phase a target document type denotes, for indexing into `phaseOrder`. -/
def DocumentType.toPhase : DocumentType → Phase
  | .rfc => .rfc
  | .plan => .plan
  | .rollout => .rollout

/-- `isPhaseComplete` from src/state/machine.ts. -/
def isPhaseComplete (state : DocForgeState) (phase : DocumentType) : Bool :=
  let currentPhase := getPhase state.currentStep
  let currentPhaseIndex := phaseOrder.indexOf currentPhase
  let targetPhaseIndex := phaseOrder.indexOf phase.toPhase
  currentPhaseIndex > targetPhaseIndex || state.currentStep = completeStepId phase

/-! ## Content hasher (src/utils/hash.ts)

`calculateHash` is `createHash('sha256').update(content, 'utf-8').digest('hex')`;
SHA-256 is implemented here over `Nat` (words reduced mod 2^32) so that digest
equalities and inequalities are decidable by evaluation. -/

/-- Reduce to a 32-bit word. -/
def w32 (n : Nat) : Nat := n % 4294967296

/-- Right rotation of a 32-bit word. -/
def rotr (n x : Nat) : Nat := w32 ((x >>> n) ||| (x <<< (32 - n)))

/-- Bitwise complement of a 32-bit word. -/
def not32 (x : Nat) : Nat := x ^^^ 4294967295

/-- SHA-256 `Ch`. -/
def sha2ch (e f g : Nat) : Nat := (e &&& f) ^^^ (not32 e &&& g)

/-- SHA-256 `Maj`. -/
def sha2maj (a b c : Nat) : Nat := (a &&& b) ^^^ (a &&& c) ^^^ (b &&& c)

/-- SHA-256 big sigma 0. -/
def bsig0 (x : Nat) : Nat := rotr 2 x ^^^ rotr 13 x ^^^ rotr 22 x

/-- SHA-256 big sigma 1. -/
def bsig1 (x : Nat) : Nat := rotr 6 x ^^^ rotr 11 x ^^^ rotr 25 x

/-- SHA-256 small sigma 0. -/
def ssig0 (x : Nat) : Nat := rotr 7 x ^^^ rotr 18 x ^^^ (x >>> 3)

/-- SHA-256 small sigma 1. -/
def ssig1 (x : Nat) : Nat := rotr 17 x ^^^ rotr 19 x ^^^ (x >>> 10)

/-- SHA-256 round constants (decimal values of the FIPS 180-4 words). -/
def sha2k : List Nat :=
  [1116352408, 1899447441, 3049323471, 3921009573, 961987163,
   1508970993, 2453635748, 2870763221, 3624381080, 310598401,
   607225278, 1426881987, 1925078388, 2162078206, 2614888103,
   3248222580, 3835390401, 4022224774, 264347078, 604807628,
   770255983, 1249150122, 1555081692, 1996064986, 2554220882,
   2821834349, 2952996808, 3210313671, 3336571891, 3584528711,
   113926993, 338241895, 666307205, 773529912, 1294757372,
   1396182291, 1695183700, 1986661051, 2177026350, 2456956037,
   2730485921, 2820302411, 3259730800, 3345764771, 3516065817,
   3600352804, 4094571909, 275423344, 430227734, 506948616,
   659060556, 883997877, 958139571, 1322822218, 1537002063,
   1747873779, 1955562222, 2024104815, 2227730452, 2361852424,
   2428436474, 2756734187, 3204031479, 3329325298]

/-- SHA-256 initial hash value (decimal values of the FIPS 180-4 words). -/
def sha2h0 : List Nat :=
  [1779033703, 3144134277, 1013904242, 2773480762,
   1359893119, 2600822924, 528734635, 1541459225]

/-- Merkle–Damgård padding: append `0x80`, zero bytes to 56 mod 64, then the
    bit length as 8 big-endian bytes. -/
def sha2pad (msg : List Nat) : List Nat :=
  let len := msg.length
  let zeroes := (55 + 64 - len % 64) % 64
  let bitLen := len * 8
  msg ++ [0x80] ++ List.replicate zeroes 0 ++
    [w32 (bitLen >>> 56) % 256, (bitLen >>> 48) % 256, (bitLen >>> 40) % 256,
     (bitLen >>> 32) % 256, (bitLen >>> 24) % 256, (bitLen >>> 16) % 256,
     (bitLen >>> 8) % 256, bitLen % 256]

/-- Interpret 4 consecutive bytes as a big-endian 32-bit word. -/
def bytesToWords : List Nat → List Nat
  | b0 :: b1 :: b2 :: b3 :: rest =>
      (b0 <<< 24 ||| b1 <<< 16 ||| b2 <<< 8 ||| b3) :: bytesToWords rest
  | _ => []

/-- Expand 16 message words to the 64-entry message schedule. -/
def sha2schedule (w16 : List Nat) : List Nat :=
  (List.range 48).foldl
    (fun w _ =>
      let n := w.length
      w ++ [w32 (ssig1 w[n - 2]! + w[n - 7]! + ssig0 w[n - 15]! + w[n - 16]!)])
    w16

/-- One SHA-256 compression step over the running 8-word state. -/
def sha2round (w : List Nat) (st : List Nat) (i : Nat) : List Nat :=
  let a := st[0]!
  let b := st[1]!
  let c := st[2]!
  let d := st[3]!
  let e := st[4]!
  let f := st[5]!
  let g := st[6]!
  let hh := st[7]!
  let t1 := w32 (hh + bsig1 e + sha2ch e f g + sha2k[i]! + w[i]!)
  let t2 := w32 (bsig0 a + sha2maj a b c)
  [w32 (t1 + t2), a, b, c, w32 (d + t1), e, f, g]

/-- Compress one block (given as its 16 message words) into the running hash
    value. -/
def compressBlock (h : List Nat) (w16 : List Nat) : List Nat :=
  let w := sha2schedule w16
  let final := (List.range 64).foldl (sha2round w) h
  List.zipWith (fun x y => w32 (x + y)) h final

/-- Fold the compression function over a word list, 16 words per block. -/
def compressAll (h : List Nat) : List Nat → List Nat
  | w0 :: w1 :: w2 :: w3 :: w4 :: w5 :: w6 :: w7 ::
    w8 :: w9 :: w10 :: w11 :: w12 :: w13 :: w14 :: w15 :: rest =>
      compressAll
        (compressBlock h
          [w0, w1, w2, w3, w4, w5, w6, w7, w8, w9, w10, w11, w12, w13, w14, w15])
        rest
  | _ => h

/-- Big-endian bytes of a 32-bit word. -/
def wordBytes (x : Nat) : List Nat :=
  [(x >>> 24) % 256, (x >>> 16) % 256, (x >>> 8) % 256, x % 256]

/-- SHA-256 of a byte list, as 32 digest bytes. -/
def sha256 (msg : List Nat) : List Nat :=
  (compressAll sha2h0 (bytesToWords (sha2pad msg))).flatMap wordBytes

/-- Lower-case hex digit. -/
def hexDigit (n : Nat) : Char :=
  if n < 10 then Char.ofNat (48 + n) else Char.ofNat (87 + n)

/-- Lower-case hex string of a byte list. -/
def toHex (bytes : List Nat) : String :=
  String.mk (bytes.flatMap (fun b => [hexDigit (b / 16), hexDigit (b % 16)]))

/-- UTF-8 encoding of one scalar value (Node's `'utf-8'` update encoding). -/
def utf8Encode (c : Char) : List Nat :=
  let n := c.toNat
  if n < 0x80 then [n]
  else if n < 0x800 then [0xc0 + n / 64, 0x80 + n % 64]
  else if n < 0x10000 then
    [0xe0 + n / 4096, 0x80 + (n / 64) % 64, 0x80 + n % 64]
  else
    [0xf0 + n / 262144, 0x80 + (n / 4096) % 64, 0x80 + (n / 64) % 64,
     0x80 + n % 64]

/-- UTF-8 bytes of a string. -/
def stringBytes (s : String) : List Nat :=
  s.data.flatMap utf8Encode

/-- `calculateHash` from src/utils/hash.ts: hex SHA-256 of the UTF-8 bytes. -/
def calculateHash (content : String) : String :=
  toHex (sha256 (stringBytes content))

/-- JavaScript whitespace (the characters `String.prototype.trim` strips and
    the regex class `\s` matches): WhiteSpace ∪ LineTerminator. -/
def isJsWs (c : Char) : Bool :=
  let n := c.toNat
  n = 9 || n = 10 || n = 11 || n = 12 || n = 13 || n = 32 || n = 160 ||
  n = 0x1680 || (0x2000 ≤ n && n ≤ 0x200a) || n = 0x2028 || n = 0x2029 ||
  n = 0x202f || n = 0x205f || n = 0x3000 || n = 0xfeff

/-- `content.replace(/\r\n/g, '\n')`: left-to-right, non-overlapping
    replacement of each CRLF pair by LF. -/
def normalizeCrlf : List Char → List Char
  | '\r' :: '\n' :: rest => '\n' :: normalizeCrlf rest
  | c :: rest => c :: normalizeCrlf rest
  | [] => []

/-- `String.prototype.trim`: strip JS whitespace from both ends. -/
def jsTrim (l : List Char) : List Char :=
  ((l.dropWhile isJsWs).reverse.dropWhile isJsWs).reverse

/-- `calculateContentHash` from src/utils/hash.ts: normalize line endings and
    trim before hashing. -/
def calculateContentHash (content : String) : String :=
  calculateHash (String.mk (jsTrim (normalizeCrlf content.data)))

/-- `contentEquals` from src/utils/hash.ts. -/
def contentEquals (c1 c2 : String) : Bool :=
  calculateContentHash c1 == calculateContentHash c2

/-! ## State store (src/state/store.ts)

The durable record at `<cwd>/.docforge/state.json` is modelled by an explicit
disk value: `none` when the file is absent, `some .malformed` when the file
exists but `JSON.parse` throws on it, and `some (.wellFormed s)` when it
holds the serialization of state `s` (serialization round-trips, so the
record is identified with the state it encodes).  `fs` rejections other than
absence are out of scope (spec §4.4: I/O errors propagate).  Each operation
returns the resulting disk alongside its result. -/

/-- Contents of the state file location. -/
inductive RawRecord where
  | wellFormed (s : DocForgeState)
  | malformed
  deriving DecidableEq

/-- The disk: `none` when no state file exists at the location. -/
def Disk : Type := Option RawRecord

instance : DecidableEq Disk :=
  inferInstanceAs (DecidableEq (Option RawRecord))

/-- The single error kind thrown by `loadState`
    (`'No DocForge project found. Run "docforge init" to create one.'`). -/
inductive StoreError where
  | noProjectFound
  deriving DecidableEq, Repr

/-- The message carried by the `Error` that `loadState` throws. -/
def StoreError.message : StoreError → String
  | .noProjectFound => "No DocForge project found. Run \"docforge init\" to create one."

/-- `projectExists` from src/state/store.ts: `access` succeeds iff the file
    is present. -/
def projectExists (disk : Disk) : Bool :=
  disk.isSome

/-- `initializeProject` from src/state/store.ts: create the directory, build
    the initial state, and write it — unconditionally. -/
def initializeProject (project : ProjectMetadata) (_disk : Disk) :
    DocForgeState × Disk :=
  let state := createInitialState project
  (state, some (.wellFormed state))

/-- `loadState` from src/state/store.ts: a missing file (`readFile` rejects)
    and an unparseable file (`JSON.parse` throws) are caught by the same
    `catch`, which throws the single `noProjectFound` error. -/
def loadState (disk : Disk) : Except StoreError DocForgeState :=
  match disk with
  | some (.wellFormed s) => .ok s
  | some .malformed => .error .noProjectFound
  | none => .error .noProjectFound

/-- `saveState` from src/state/store.ts: overwrite the record wholesale. -/
def saveState (state : DocForgeState) (_disk : Disk) : Disk :=
  some (.wellFormed state)

/-- `Partial<DocForgeState>`: each top-level field optionally present. -/
structure StateUpdate where
  version : Option Nat := none
  project : Option ProjectMetadata := none
  currentStep : Option StepId := none
  checkpointResponses : Option (List CheckpointResponse) := none
  approvals : Option (List Approval) := none
  documentHashes : Option DocumentHashes := none
  documentProgress : Option DocumentProgress := none
  strictMode : Option Bool := none
  deriving DecidableEq, Repr

/-- The spread `{ ...state, ...updates }`: each top-level field present in
    `updates` replaces the field of `state` wholesale. -/
def mergeState (state : DocForgeState) (updates : StateUpdate) : DocForgeState where
  version := updates.version.getD state.version
  project := updates.project.getD state.project
  currentStep := updates.currentStep.getD state.currentStep
  checkpointResponses := updates.checkpointResponses.getD state.checkpointResponses
  approvals := updates.approvals.getD state.approvals
  documentHashes := updates.documentHashes.getD state.documentHashes
  documentProgress := updates.documentProgress.getD state.documentProgress
  strictMode := updates.strictMode.getD state.strictMode

/-- `updateState` from src/state/store.ts: load, shallow-merge, save, return. -/
def updateState (updates : StateUpdate) (disk : Disk) :
    Except StoreError (DocForgeState × Disk) := do
  let state ← loadState disk
  let newState := mergeState state updates
  pure (newState, saveState newState disk)

/-- `recordCheckpointResponse` from src/state/store.ts; `now` stands for
    `new Date().toISOString()`. -/
def recordCheckpointResponse (stepId : String)
    (disagreements clarifications missedConstraints : Option String)
    (now : String) (disk : Disk) : Except StoreError (DocForgeState × Disk) := do
  let state ← loadState disk
  let response : CheckpointResponse :=
    { stepId := stepId, disagreements := disagreements,
      clarifications := clarifications, missedConstraints := missedConstraints,
      respondedAt := now }
  let newState :=
    { state with checkpointResponses := state.checkpointResponses ++ [response] }
  pure (newState, saveState newState disk)

/-- `recordApproval` from src/state/store.ts: hash the content, drop any
    existing approval for the type, push a fresh one, update
    `documentHashes[documentType]`, save; `now` stands for
    `new Date().toISOString()`. -/
def recordApproval (documentType : DocumentType) (content : String)
    (now : String) (disk : Disk) : Except StoreError (DocForgeState × Disk) := do
  let state ← loadState disk
  let contentHash := calculateHash content
  let kept := state.approvals.filter (fun a => a.documentType ≠ documentType)
  let newState :=
    { state with
      approvals := kept ++
        [{ documentType := documentType, contentHash := contentHash,
           approvedAt := now }],
      documentHashes := state.documentHashes.set documentType contentHash }
  pure (newState, saveState newState disk)

/-- `isDocumentApproved` from src/state/store.ts. -/
def isDocumentApproved (state : DocForgeState) (documentType : DocumentType) : Bool :=
  state.approvals.any (fun a => a.documentType = documentType)

/-- `hasDocumentChanged` from src/state/store.ts: no approval counts as
    changed; otherwise compare the stored hash against the raw hash of the
    current content. -/
def hasDocumentChanged (state : DocForgeState) (documentType : DocumentType)
    (currentContent : String) : Bool :=
  match state.approvals.find? (fun a => a.documentType = documentType) with
  | none => true
  | some approval => approval.contentHash ≠ calculateHash currentContent

/-- `areAllDocumentsApproved` from src/state/store.ts. -/
def areAllDocumentsApproved (state : DocForgeState) : Bool :=
  [DocumentType.rfc, DocumentType.plan, DocumentType.rollout].all
    (fun doc => isDocumentApproved state doc)

/-! ## The `init` command guard (src/commands/init.ts) -/

/-- The failure outcome of `docforge init` (`process.exit(1)` after
    `'A DocForge project already exists in this directory.'`). -/
inductive InitError where
  | projectAlreadyExists
  deriving DecidableEq, Repr

/-- The state-relevant action of `initCommand` from src/commands/init.ts:
    refuse when `projectExists`, otherwise call `initializeProject` and, when
    the `--strict` option was given, set `strictMode` and save again. -/
def initCommandRun (project : ProjectMetadata) (strict : Bool) (disk : Disk) :
    Except InitError (DocForgeState × Disk) :=
  if projectExists disk then
    .error .projectAlreadyExists
  else
    let (state, disk1) := initializeProject project disk
    if strict then
      let state1 := { state with strictMode := true }
      .ok (state1, saveState state1 disk1)
    else
      .ok (state, disk1)

/-! ## Document validator (src/utils/validation.ts)

The source checks each section requirement with `RegExp.prototype.test`.  The
patterns use only literals, the classes `\s`, `\d` and `.`, the quantifiers
`*`, `+` and `(?:...)?`, and the flags `i` (case-insensitive literals) and
`m` (`^` matches at the start and after every line terminator).  They are
compiled here to a regular-expression AST with a Brzozowski-derivative
matcher. -/

/-- Regular expressions over `Char`, with character classes as predicates. -/
inductive Regex where
  | fail
  | eps
  | cls (p : Char → Bool)
  | seq (r1 r2 : Regex)
  | alt (r1 r2 : Regex)
  | star (r : Regex)

/-- Does the regex accept the empty string? -/
def Regex.nullable : Regex → Bool
  | .fail => false
  | .eps => true
  | .cls _ => false
  | .seq r1 r2 => r1.nullable && r2.nullable
  | .alt r1 r2 => r1.nullable || r2.nullable
  | .star _ => true

/-- Brzozowski derivative of a regex by one character. -/
def Regex.deriv : Regex → Char → Regex
  | .fail, _ => .fail
  | .eps, _ => .fail
  | .cls p, c => if p c then .eps else .fail
  | .seq r1 r2, c =>
      if r1.nullable then .alt (.seq (r1.deriv c) r2) (r2.deriv c)
      else .seq (r1.deriv c) r2
  | .alt r1 r2, c => .alt (r1.deriv c) (r2.deriv c)
  | .star r, c => .seq (r.deriv c) (.star r)

/-- Does the regex match some prefix of `cs` (a `test` attempt at one
    position)? -/
def matchesHere : Regex → List Char → Bool
  | r, [] => r.nullable
  | r, c :: cs => r.nullable || matchesHere (r.deriv c) cs

/-- Unanchored search: try every position (`test` without `^`). -/
def searchAll : Regex → List Char → Bool
  | r, [] => matchesHere r []
  | r, c :: cs => matchesHere r (c :: cs) || searchAll r cs

/-- JS line terminators (`\n`, `\r`, U+2028, U+2029). -/
def isLineTerm (c : Char) : Bool :=
  c = '\n' || c = '\r' || c.toNat = 0x2028 || c.toNat = 0x2029

/-- Try matching right after every line terminator. -/
def searchAfterTerm : Regex → List Char → Bool
  | _, [] => false
  | r, c :: cs => (isLineTerm c && matchesHere r cs) || searchAfterTerm r cs

/-- `test` of a `/^.../m` pattern: match at the start or right after a line
    terminator. -/
def searchLineAnchored (r : Regex) (cs : List Char) : Bool :=
  matchesHere r cs || searchAfterTerm r cs

/-- A compiled source pattern: body regex plus whether it begins with a
    multiline `^` anchor. -/
structure Pattern where
  anchored : Bool
  rx : Regex

/-- `RegExp.prototype.test` on a compiled pattern. -/
def testPattern (p : Pattern) (text : String) : Bool :=
  if p.anchored then searchLineAnchored p.rx text.data
  else searchAll p.rx text.data

/-- One literal character under the `i` flag. -/
def rchar (c : Char) : Regex :=
  .cls (fun d => d.toLower == c.toLower)

/-- A literal string under the `i` flag. -/
def rstr (s : String) : Regex :=
  s.data.foldr (fun c r => .seq (rchar c) r) .eps

/-- The class `\s`. -/
def rws : Regex := .cls isJsWs

/-- `\s*`. -/
def rwsStar : Regex := .star rws

/-- `\s+`. -/
def rwsPlus : Regex := .seq rws (.star rws)

/-- The class `\d`. -/
def rdigit : Regex := .cls (fun c => '0' ≤ c && c ≤ '9')

/-- `\d+`. -/
def rdigitPlus : Regex := .seq rdigit (.star rdigit)

/-- `(?:...)?`. -/
def ropt (r : Regex) : Regex := .alt r .eps

/-- `.` without the `s` flag: anything but a line terminator. -/
def rdot : Regex := .cls (fun c => !isLineTerm c)

/-- `.*`. -/
def rdotStar : Regex := .star rdot

/-- `SectionRequirement` from src/utils/validation.ts. -/
structure SectionRequirement where
  name : String
  required : Bool
  pattern : Pattern

/-- Helper: `/^##\s*<rest>/mi`. -/
def headingPattern (rest : Regex) : Pattern :=
  { anchored := true, rx := .seq (rstr "##") (.seq rwsStar rest) }

/-- `RFC_SECTIONS` from src/utils/validation.ts. -/
def RFC_SECTIONS : List SectionRequirement :=
  [{ name := "Problem Statement", required := true,
     pattern := headingPattern (rstr "Problem") },
   { name := "Goals", required := true,
     pattern := headingPattern (rstr "Goals") },
   { name := "Non-Goals", required := true,
     pattern := headingPattern (rstr "Non-Goals") },
   { name := "Approach", required := true,
     pattern := headingPattern
       (.seq (ropt (.seq (rstr "Proposed") rwsPlus)) (rstr "Approach")) },
   { name := "Interfaces & Contracts", required := true,
     pattern := headingPattern (rstr "Interfaces") },
   { name := "Alternatives", required := true,
     pattern := headingPattern (rstr "Alternatives") },
   { name := "Open Questions", required := false,
     pattern := headingPattern (.seq (rstr "Open") (.seq rwsStar (rstr "Questions"))) },
   { name := "Assumptions", required := false,
     pattern := headingPattern (rstr "Assumptions") }]

/-- `PLAN_SECTIONS` from src/utils/validation.ts. -/
def PLAN_SECTIONS : List SectionRequirement :=
  [{ name := "Overview", required := true,
     pattern := headingPattern (rstr "Overview") },
   { name := "Stages", required := true,
     pattern := headingPattern (.seq (rstr "Stage") (.seq rwsStar rdigitPlus)) },
   { name := "Acceptance Criteria", required := true,
     pattern := { anchored := false,
                  rx := .seq (rstr "acceptance") (.seq rwsStar (rstr "criteria")) } },
   { name := "Definition of Done", required := true,
     pattern := { anchored := false,
                  rx := .seq (rstr "definition")
                          (.seq rwsStar (.seq (rstr "of") (.seq rwsStar (rstr "done")))) } }]

/-- `ROLLOUT_SECTIONS` from src/utils/validation.ts. -/
def ROLLOUT_SECTIONS : List SectionRequirement :=
  [{ name := "Key Risks", required := true,
     pattern := headingPattern
       (.seq (ropt (.seq (rstr "Key") rwsStar)) (rstr "Risks")) },
   { name := "Observability", required := true,
     pattern := headingPattern (rstr "Observability") },
   { name := "Rollout Steps", required := true,
     pattern := headingPattern (rstr "Rollout") },
   { name := "Kill Switch", required := true,
     pattern := { anchored := false,
                  rx := .seq (rstr "kill") (.seq rwsStar (rstr "switch")) } },
   { name := "Rollback", required := true,
     pattern := headingPattern (rstr "Rollback") },
   { name := "Stop Conditions", required := true,
     pattern := { anchored := false,
                  rx := .seq (rstr "stop") (.seq rdotStar (rstr "condition")) } }]

/-- `ValidationResult` from src/utils/validation.ts. -/
structure ValidationResult where
  valid : Bool
  missingSections : List String
  warnings : List String
  deriving DecidableEq, Repr

/-- `validateDocument` from src/utils/validation.ts: one pass over the section
    requirements, collecting missing required names and optional warnings. -/
def validateDocument (content : String) (sections : List SectionRequirement) :
    ValidationResult :=
  let step := fun (acc : List String × List String) (sec : SectionRequirement) =>
    if testPattern sec.pattern content then acc
    else if sec.required then (acc.1 ++ [sec.name], acc.2)
    else (acc.1, acc.2 ++ ["Optional section missing: " ++ sec.name])
  let collected := sections.foldl step ([], [])
  { valid := collected.1.length == 0,
    missingSections := collected.1,
    warnings := collected.2 }

/-- `validateRfc` from src/utils/validation.ts. -/
def validateRfc (content : String) : ValidationResult :=
  validateDocument content RFC_SECTIONS

/-- `validatePlan` from src/utils/validation.ts. -/
def validatePlan (content : String) : ValidationResult :=
  validateDocument content PLAN_SECTIONS

/-- `validateRollout` from src/utils/validation.ts. -/
def validateRollout (content : String) : ValidationResult :=
  validateDocument content ROLLOUT_SECTIONS

/-- `validateDocumentByType` from src/utils/validation.ts. -/
def validateDocumentByType (documentType : DocumentType) (content : String) :
    ValidationResult :=
  match documentType with
  | .rfc => validateRfc content
  | .plan => validatePlan content
  | .rollout => validateRollout content

/-- The section-requirement table `validateDocumentByType` consults. -/
def sectionsFor : DocumentType → List SectionRequirement
  | .rfc => RFC_SECTIONS
  | .plan => PLAN_SECTIONS
  | .rollout => ROLLOUT_SECTIONS

/-- Result of `strictModeCheck`. -/
structure StrictCheck where
  passes : Bool
  errors : List String
  deriving DecidableEq, Repr

/-- `strictModeCheck` from src/utils/validation.ts. -/
def strictModeCheck (state : DocForgeState) (documentType : DocumentType)
    (content : String) : StrictCheck :=
  if !state.strictMode then
    { passes := true, errors := [] }
  else
    let result := validateDocumentByType documentType content
    if !result.valid then
      { passes := false,
        errors := result.missingSections.map
          (fun s => "Missing required section: " ++ s) }
    else
      { passes := true, errors := [] }

/-! ## Theorems -/

/-- **C9** — Starting from the initial step `rfc.problem` and repeatedly
following `getNextStep`, the resulting sequence of steps is finite, visits
each `StepId` at most once, and ends at the unique step whose `next` is
`null` (the `complete` step); the step graph contains no cycle.  The
trajectory is exactly `stepOrder`: it starts at `rfc.problem`, consecutive
entries are linked by `getNextStep`, it has no duplicate, it contains every
`StepId` (hence following `next` from `rfc.problem` can never revisit a step),
and `complete` is the unique step with no successor, sitting at the end. -/
theorem stepGraph_linear_acyclic :
    stepOrder.head? = some StepId.rfcProblem ∧
    (∀ p ∈ stepOrder.zip stepOrder.tail, getNextStep p.1 = some p.2) ∧
    stepOrder.Nodup ∧
    (∀ s : StepId, s ∈ stepOrder) ∧
    stepOrder.getLast? = some StepId.complete ∧
    (∀ s : StepId, getNextStep s = none ↔ s = StepId.complete) := by
  decide

/-- **C5** — For every state and every target phase in `{rfc, plan, rollout}`,
`isPhaseComplete` returns true iff the index of the current step's phase in
the fixed order `rfc, plan, rollout, prompts` is strictly greater than the
target phase's index, or the current step equals that phase's
`<phase>.complete` sentinel exactly; in particular it returns false at every
non-sentinel step inside the phase. -/
theorem isPhaseComplete_policy (s : DocForgeState) (phase : DocumentType) :
    (isPhaseComplete s phase = true ↔
      (phaseOrder.indexOf (getPhase s.currentStep) >
        phaseOrder.indexOf phase.toPhase ∨
       s.currentStep = completeStepId phase)) ∧
    (getPhase s.currentStep = phase.toPhase →
      s.currentStep ≠ completeStepId phase →
      isPhaseComplete s phase = false) := by
  constructor
  · simp [isPhaseComplete, Bool.or_eq_true, decide_eq_true_iff]
  · intro hph hne
    simp [isPhaseComplete, hph, hne]

/-- **C5 witness** — At the last substantive RFC step (`rfc.alternatives`,
inside the `rfc` phase but not its sentinel), the RFC phase is not complete. -/
theorem isPhaseComplete_policy_witness :
    isPhaseComplete
      { version := 1,
        project := { name := "P", stack := ["TS"], constraints := [],
                     createdAt := "2024-01-01" },
        currentStep := .rfcAlternatives,
        checkpointResponses := [], approvals := [], documentHashes := {},
        documentProgress := { rfc := {}, plan := {}, rollout := {} },
        strictMode := false } DocumentType.rfc = false :=
  (isPhaseComplete_policy _ DocumentType.rfc).2 (by decide) (by decide)

/-- **C4** — For every state, document type and text: if `state.strictMode`
is false then `strictModeCheck` passes with no errors regardless of the text;
if it is true then `strictModeCheck` passes iff `validate` reports the
document valid, and on failure its errors are exactly one message per missing
required section. -/
theorem strictModeCheck_policy (s : DocForgeState) (t : DocumentType)
    (content : String) :
    (s.strictMode = false →
      strictModeCheck s t content = { passes := true, errors := [] }) ∧
    (s.strictMode = true →
      (((strictModeCheck s t content).passes = true ↔
         (validateDocumentByType t content).valid = true) ∧
       ((validateDocumentByType t content).valid = false →
         (strictModeCheck s t content).errors =
           (validateDocumentByType t content).missingSections.map
             (fun sec => "Missing required section: " ++ sec)))) := by
  unfold strictModeCheck
  rcases hsm : s.strictMode <;>
    rcases hv : (validateDocumentByType t content).valid <;>
      simp [hsm, hv]

/-- **C4 witness** — With strict mode on, a text missing every required RFC
section fails `strictModeCheck`, with one error naming each missing required
section. -/
theorem strictModeCheck_policy_witness :
    (strictModeCheck
      { version := 1,
        project := { name := "P", stack := [], constraints := [],
                     createdAt := "t" },
        currentStep := .rfcProblem,
        checkpointResponses := [], approvals := [], documentHashes := {},
        documentProgress := { rfc := {}, plan := {}, rollout := {} },
        strictMode := true } DocumentType.rfc "no headings here").errors =
      ["Missing required section: Problem Statement",
       "Missing required section: Goals",
       "Missing required section: Non-Goals",
       "Missing required section: Approach",
       "Missing required section: Interfaces & Contracts",
       "Missing required section: Alternatives"] := by
  have h := (strictModeCheck_policy
    { version := 1,
      project := { name := "P", stack := [], constraints := [],
                   createdAt := "t" },
      currentStep := .rfcProblem,
      checkpointResponses := [], approvals := [], documentHashes := {},
      documentProgress := { rfc := {}, plan := {}, rollout := {} },
      strictMode := true } DocumentType.rfc "no headings here").2 rfl
  rw [h.2 (by decide)]
  decide

/-- **C6** — `loadState` fails with the same "no project found" error kind
both when the record is absent and when it exists but fails to parse, and it
never returns a partially constructed or malformed object: whenever it
succeeds, the disk held exactly the well-formed record it returns.  Absence
and corruption are thus indistinguishable to the caller. -/
theorem loadState_absent_corrupt_same_error :
    loadState (none : Disk) = .error .noProjectFound ∧
    loadState (some .malformed) = .error .noProjectFound ∧
    (∀ (d : Disk) (s : DocForgeState),
      loadState d = .ok s → d = some (.wellFormed s)) := by
  refine ⟨rfl, rfl, fun d s h => ?_⟩
  match d with
  | none => exact absurd h (by simp [loadState])
  | some .malformed => exact absurd h (by simp [loadState])
  | some (.wellFormed s0) =>
      obtain rfl : s0 = s := by simpa [loadState] using h
      rfl

/-- **C6 witness** — On a concrete well-formed record, `loadState` succeeds
and the success case of the theorem pins the disk to that record. -/
theorem loadState_absent_corrupt_same_error_witness :
    (some (RawRecord.wellFormed (createInitialState
        { name := "P", stack := [], constraints := [], createdAt := "t" })) : Disk) =
      some (.wellFormed (createInitialState
        { name := "P", stack := [], constraints := [], createdAt := "t" })) :=
  loadState_absent_corrupt_same_error.2.2 _
    (createInitialState
      { name := "P", stack := [], constraints := [], createdAt := "t" }) rfl

/-- **C8** — For every stored state `s` and partial update, `updateState`
persists and returns the shallow merge of the update over `s`: every
top-level field present in the update replaces the corresponding field of `s`
wholesale (nested objects such as `documentProgress` are replaced, not
deep-merged), and every top-level field absent from the update is unchanged. -/
theorem updateState_shallow_merge (s : DocForgeState) (updates : StateUpdate)
    (disk : Disk) (h : disk = some (.wellFormed s)) :
    updateState updates disk =
      .ok (mergeState s updates, some (.wellFormed (mergeState s updates))) ∧
    (∀ x, updates.version = some x → (mergeState s updates).version = x) ∧
    (updates.version = none → (mergeState s updates).version = s.version) ∧
    (∀ x, updates.project = some x → (mergeState s updates).project = x) ∧
    (updates.project = none → (mergeState s updates).project = s.project) ∧
    (∀ x, updates.currentStep = some x → (mergeState s updates).currentStep = x) ∧
    (updates.currentStep = none →
      (mergeState s updates).currentStep = s.currentStep) ∧
    (∀ x, updates.checkpointResponses = some x →
      (mergeState s updates).checkpointResponses = x) ∧
    (updates.checkpointResponses = none →
      (mergeState s updates).checkpointResponses = s.checkpointResponses) ∧
    (∀ x, updates.approvals = some x → (mergeState s updates).approvals = x) ∧
    (updates.approvals = none → (mergeState s updates).approvals = s.approvals) ∧
    (∀ x, updates.documentHashes = some x →
      (mergeState s updates).documentHashes = x) ∧
    (updates.documentHashes = none →
      (mergeState s updates).documentHashes = s.documentHashes) ∧
    (∀ x, updates.documentProgress = some x →
      (mergeState s updates).documentProgress = x) ∧
    (updates.documentProgress = none →
      (mergeState s updates).documentProgress = s.documentProgress) ∧
    (∀ x, updates.strictMode = some x → (mergeState s updates).strictMode = x) ∧
    (updates.strictMode = none → (mergeState s updates).strictMode = s.strictMode) := by
  subst h
  refine ⟨rfl, ?_, ?_, ?_, ?_, ?_, ?_, ?_, ?_, ?_, ?_, ?_, ?_, ?_, ?_, ?_, ?_⟩ <;>
    first
      | (intro x hx; simp [mergeState, hx])
      | (intro hx; simp [mergeState, hx])

/-- **C8 witness** — A concrete update that carries only a `documentProgress`
sub-object replaces the stored progress wholesale and leaves the other fields
alone. -/
theorem updateState_shallow_merge_witness :
    updateState
      { documentProgress :=
          some { rfc := { problem := some "new" }, plan := {}, rollout := {} } }
      (some (.wellFormed (createInitialState
        { name := "P", stack := ["TS"], constraints := [], createdAt := "t" }))) =
      .ok
        (mergeState
          (createInitialState
            { name := "P", stack := ["TS"], constraints := [], createdAt := "t" })
          { documentProgress :=
              some { rfc := { problem := some "new" }, plan := {}, rollout := {} } },
         some (.wellFormed (mergeState
          (createInitialState
            { name := "P", stack := ["TS"], constraints := [], createdAt := "t" })
          { documentProgress :=
              some { rfc := { problem := some "new" }, plan := {}, rollout := {} } }))) :=
  (updateState_shallow_merge
    (createInitialState
      { name := "P", stack := ["TS"], constraints := [], createdAt := "t" })
    { documentProgress :=
        some { rfc := { problem := some "new" }, plan := {}, rollout := {} } }
    _ rfl).1

/-- **C10** — Project metadata is never modified after initialization:
`recordCheckpointResponse` changes only `checkpointResponses`, and
`recordApproval` changes only `approvals` and `documentHashes`; every other
field (`project`, `version`, `currentStep`, `documentProgress`, `strictMode`,
and the fields not targeted by the respective operation) is returned and
persisted unchanged. -/
theorem record_ops_frame (s : DocForgeState) (disk : Disk) (stepId : String)
    (dis cla mis : Option String) (now : String) (t : DocumentType)
    (content : String) (h : disk = some (.wellFormed s)) :
    (∃ s1, recordCheckpointResponse stepId dis cla mis now disk =
        .ok (s1, some (.wellFormed s1)) ∧
      s1.project = s.project ∧ s1.version = s.version ∧
      s1.currentStep = s.currentStep ∧
      s1.documentProgress = s.documentProgress ∧
      s1.strictMode = s.strictMode ∧
      s1.approvals = s.approvals ∧
      s1.documentHashes = s.documentHashes) ∧
    (∃ s2, recordApproval t content now disk = .ok (s2, some (.wellFormed s2)) ∧
      s2.project = s.project ∧ s2.version = s.version ∧
      s2.currentStep = s.currentStep ∧
      s2.documentProgress = s.documentProgress ∧
      s2.strictMode = s.strictMode ∧
      s2.checkpointResponses = s.checkpointResponses) := by
  subst h
  exact ⟨⟨_, rfl, rfl, rfl, rfl, rfl, rfl, rfl, rfl⟩,
         ⟨_, rfl, rfl, rfl, rfl, rfl, rfl, rfl⟩⟩

/-- **C10 witness** — The frame conditions instantiated on a concrete state,
checkpoint response and approval. -/
theorem record_ops_frame_witness :
    (∃ s1, recordCheckpointResponse "rfc.problem" (some "d") none none "t1"
        (some (.wellFormed (createInitialState
          { name := "P", stack := ["TS"], constraints := [], createdAt := "t0" }))) =
        .ok (s1, some (.wellFormed s1)) ∧
      s1.project = (createInitialState
        { name := "P", stack := ["TS"], constraints := [], createdAt := "t0" }).project ∧
      s1.version = (createInitialState
        { name := "P", stack := ["TS"], constraints := [], createdAt := "t0" }).version ∧
      s1.currentStep = (createInitialState
        { name := "P", stack := ["TS"], constraints := [], createdAt := "t0" }).currentStep ∧
      s1.documentProgress = (createInitialState
        { name := "P", stack := ["TS"], constraints := [], createdAt := "t0" }).documentProgress ∧
      s1.strictMode = (createInitialState
        { name := "P", stack := ["TS"], constraints := [], createdAt := "t0" }).strictMode ∧
      s1.approvals = (createInitialState
        { name := "P", stack := ["TS"], constraints := [], createdAt := "t0" }).approvals ∧
      s1.documentHashes = (createInitialState
        { name := "P", stack := ["TS"], constraints := [], createdAt := "t0" }).documentHashes) ∧
    (∃ s2, recordApproval DocumentType.rfc "# RFC" "t1"
        (some (.wellFormed (createInitialState
          { name := "P", stack := ["TS"], constraints := [], createdAt := "t0" }))) =
        .ok (s2, some (.wellFormed s2)) ∧
      s2.project = (createInitialState
        { name := "P", stack := ["TS"], constraints := [], createdAt := "t0" }).project ∧
      s2.version = (createInitialState
        { name := "P", stack := ["TS"], constraints := [], createdAt := "t0" }).version ∧
      s2.currentStep = (createInitialState
        { name := "P", stack := ["TS"], constraints := [], createdAt := "t0" }).currentStep ∧
      s2.documentProgress = (createInitialState
        { name := "P", stack := ["TS"], constraints := [], createdAt := "t0" }).documentProgress ∧
      s2.strictMode = (createInitialState
        { name := "P", stack := ["TS"], constraints := [], createdAt := "t0" }).strictMode ∧
      s2.checkpointResponses = (createInitialState
        { name := "P", stack := ["TS"], constraints := [], createdAt := "t0" }).checkpointResponses) :=
  record_ops_frame
    (createInitialState
      { name := "P", stack := ["TS"], constraints := [], createdAt := "t0" })
    _ "rfc.problem" (some "d") none none "t1" DocumentType.rfc "# RFC" rfl

/-- Filtering out a document type then keeping only it yields nothing. -/
lemma filter_ne_then_eq_nil (t : DocumentType) (l : List Approval) :
    (l.filter (fun a => a.documentType ≠ t)).filter
      (fun a => a.documentType = t) = [] := by
  induction l with
  | nil => rfl
  | cons a l ih => by_cases h : a.documentType = t <;> simp [h, ih]

/-- Filtering out a document type is idempotent. -/
lemma filter_ne_idem (t : DocumentType) (l : List Approval) :
    (l.filter (fun a => a.documentType ≠ t)).filter
      (fun a => a.documentType ≠ t) =
      l.filter (fun a => a.documentType ≠ t) := by
  induction l with
  | nil => rfl
  | cons a l ih => by_cases h : a.documentType = t <;> simp [h, ih]

/-- `find?` for a document type skips all entries of other types and lands on
    the appended approval. -/
lemma find_after_filter_ne (t : DocumentType) (l : List Approval)
    (app : Approval) (happ : app.documentType = t) :
    (l.filter (fun a => a.documentType ≠ t) ++ [app]).find?
      (fun a => a.documentType = t) = some app := by
  induction l with
  | nil => simp [List.find?, happ]
  | cons a l ih =>
      by_cases h : a.documentType = t
      · simpa [List.filter_cons, h] using ih
      · rw [List.filter_cons_of_pos (by simp [h])]
        rw [List.cons_append, List.find?_cons_of_neg _ (by simp [h])]
        exact ih

/-- **C3** — For every stored state, document type `t` and contents `A`, `B`:
after `recordApproval t A` followed by `recordApproval t B`, the approvals
list contains exactly one entry for `t`, whose `contentHash` is the hash of
`B`, `documentHashes[t]` equals that same hash, and the approval entries for
the other document types are exactly those of the original state. -/
theorem recordApproval_replaces (s : DocForgeState) (t : DocumentType)
    (A B n1 n2 : String) (disk : Disk) (h : disk = some (.wellFormed s)) :
    ∃ s1 s2,
      recordApproval t A n1 disk = .ok (s1, some (.wellFormed s1)) ∧
      recordApproval t B n2 (some (.wellFormed s1)) =
        .ok (s2, some (.wellFormed s2)) ∧
      s2.approvals.filter (fun a => a.documentType = t) =
        [{ documentType := t, contentHash := calculateHash B, approvedAt := n2 }] ∧
      s2.documentHashes.get t = some (calculateHash B) ∧
      s2.approvals.filter (fun a => a.documentType ≠ t) =
        s.approvals.filter (fun a => a.documentType ≠ t) := by
  subst h
  refine ⟨_, _, rfl, rfl, ?_, ?_, ?_⟩
  · simp [List.filter_append, filter_ne_then_eq_nil, filter_ne_idem]
  · cases t <;> rfl
  · simp [List.filter_append, filter_ne_idem]

/-- **C3 witness** — Two successive approvals of the `rfc` document on a
concrete state leave exactly one `rfc` approval, hashed from the second
content. -/
theorem recordApproval_replaces_witness :
    ∃ s1 s2,
      recordApproval DocumentType.rfc "A" "t1"
        (some (.wellFormed (createInitialState
          { name := "P", stack := [], constraints := [], createdAt := "t0" }))) =
        .ok (s1, some (.wellFormed s1)) ∧
      recordApproval DocumentType.rfc "B" "t2" (some (.wellFormed s1)) =
        .ok (s2, some (.wellFormed s2)) ∧
      s2.approvals.filter (fun a => a.documentType = DocumentType.rfc) =
        [{ documentType := DocumentType.rfc, contentHash := calculateHash "B",
           approvedAt := "t2" }] ∧
      s2.documentHashes.get DocumentType.rfc = some (calculateHash "B") ∧
      s2.approvals.filter (fun a => a.documentType ≠ DocumentType.rfc) =
        (createInitialState
          { name := "P", stack := [], constraints := [], createdAt := "t0" }
        ).approvals.filter (fun a => a.documentType ≠ DocumentType.rfc) :=
  recordApproval_replaces
    (createInitialState
      { name := "P", stack := [], constraints := [], createdAt := "t0" })
    DocumentType.rfc "A" "B" "t1" "t2" _ rfl

/-- **C1 counterexample** — `initializeProject` called on a location that
already holds a state record (here: a project named "P" advanced to
`plan.stages`) does not fail and does not leave the record unchanged: it
overwrites it with a fresh initial state for the new metadata. -/
theorem initializeProject_overwrites_existing :
    (initializeProject
        { name := "Q", stack := [], constraints := [], createdAt := "t1" }
        (some (.wellFormed
          { createInitialState
              { name := "P", stack := [], constraints := [], createdAt := "t0" } with
            currentStep := .planStages }))).2 ≠
      some (.wellFormed
        { createInitialState
            { name := "P", stack := [], constraints := [], createdAt := "t0" } with
          currentStep := .planStages }) ∧
    (initializeProject
        { name := "Q", stack := [], constraints := [], createdAt := "t1" }
        (some (.wellFormed
          { createInitialState
              { name := "P", stack := [], constraints := [], createdAt := "t0" } with
            currentStep := .planStages }))).1 =
      createInitialState
        { name := "Q", stack := [], constraints := [], createdAt := "t1" } := by
  exact ⟨by decide, rfl⟩

/-- **C1 (amended)** — The existence check lives in the `init` command, not in
`initializeProject`: when a record exists at the location, `initCommand`
fails (exit 1) without writing; `initializeProject` itself performs no check
and unconditionally writes a fresh initial state over whatever is there. -/
theorem initCommand_guards_existing (project : ProjectMetadata) (strict : Bool)
    (disk : Disk) :
    (projectExists disk = true →
      initCommandRun project strict disk = .error .projectAlreadyExists) ∧
    (∀ d : Disk,
      (initializeProject project d).2 =
        some (.wellFormed (createInitialState project))) := by
  refine ⟨fun h => ?_, fun d => rfl⟩
  simp [initCommandRun, h]

/-- **C1 witness** — On a concrete occupied location, the `init` command
refuses, while a direct `initializeProject` call writes the fresh record. -/
theorem initCommand_guards_existing_witness :
    initCommandRun
      { name := "Q", stack := [], constraints := [], createdAt := "t1" } false
      (some (.wellFormed (createInitialState
        { name := "P", stack := [], constraints := [], createdAt := "t0" }))) =
      .error .projectAlreadyExists ∧
    (initializeProject
      { name := "Q", stack := [], constraints := [], createdAt := "t1" }
      (some (.wellFormed (createInitialState
        { name := "P", stack := [], constraints := [], createdAt := "t0" })))).2 =
      some (.wellFormed (createInitialState
        { name := "Q", stack := [], constraints := [], createdAt := "t1" })) :=
  ⟨(initCommand_guards_existing _ false _).1 rfl,
   (initCommand_guards_existing
     { name := "Q", stack := [], constraints := [], createdAt := "t1" } false
     none).2 _⟩

/-- **C2 counterexample** — Change detection does not normalize whitespace:
record an approval for `rfc` from `A = "# Doc\r\nBody "`; the content
`B = "# Doc\nBody"` is exactly `A` with CRLF replaced by LF and trimmed, yet
`hasDocumentChanged` returns `true` (claim says `false`), because both sides
of the comparison use the raw hash. -/
theorem hasDocumentChanged_counterexample :
    String.mk (jsTrim (normalizeCrlf ("# Doc\r\nBody ").data)) = "# Doc\nBody" ∧
    (recordApproval DocumentType.rfc "# Doc\r\nBody " "t1"
        (some (.wellFormed (createInitialState
          { name := "P", stack := [], constraints := [], createdAt := "t0" })))
      ).toOption.map
        (fun p => hasDocumentChanged p.1 DocumentType.rfc "# Doc\nBody") =
      some true := by
  exact ⟨rfl, by decide⟩

/-- **C2 (amended)** — `recordApproval` stores the raw (unnormalized) hash of
`A` — that half of the claim holds — but `hasDocumentChanged` compares raw
hashes as well: after recording an approval from `A`, it reports a change for
content `B` exactly when the raw hashes of `A` and `B` differ; the
line-ending-normalizing hash (`calculateContentHash`) is not used in the
change-detection path. -/
theorem hasDocumentChanged_raw_hash (s : DocForgeState) (t : DocumentType)
    (A B now : String) (disk : Disk) (h : disk = some (.wellFormed s)) :
    ∃ s1, recordApproval t A now disk = .ok (s1, some (.wellFormed s1)) ∧
      s1.approvals.find? (fun a => a.documentType = t) =
        some { documentType := t, contentHash := calculateHash A,
               approvedAt := now } ∧
      (hasDocumentChanged s1 t B = true ↔ calculateHash A ≠ calculateHash B) := by
  subst h
  have happ :
      (s.approvals.filter (fun a => a.documentType ≠ t) ++
        [({ documentType := t, contentHash := calculateHash A,
            approvedAt := now } : Approval)]).find?
        (fun a => a.documentType = t) =
      some ({ documentType := t, contentHash := calculateHash A,
              approvedAt := now } : Approval) :=
    find_after_filter_ne t s.approvals
      { documentType := t, contentHash := calculateHash A, approvedAt := now }
      rfl
  refine ⟨_, rfl, happ, ?_⟩
  unfold hasDocumentChanged
  rw [happ]
  simp

/-- **C2 (amended) witness** — The amended statement instantiated on a
concrete state and contents. -/
theorem hasDocumentChanged_raw_hash_witness :
    ∃ s1, recordApproval DocumentType.rfc "A" "t1"
        (some (.wellFormed (createInitialState
          { name := "P", stack := [], constraints := [], createdAt := "t0" }))) =
        .ok (s1, some (.wellFormed s1)) ∧
      s1.approvals.find? (fun a => a.documentType = DocumentType.rfc) =
        some { documentType := DocumentType.rfc, contentHash := calculateHash "A",
               approvedAt := "t1" } ∧
      (hasDocumentChanged s1 DocumentType.rfc "B" = true ↔
        calculateHash "A" ≠ calculateHash "B") :=
  hasDocumentChanged_raw_hash
    (createInitialState
      { name := "P", stack := [], constraints := [], createdAt := "t0" })
    DocumentType.rfc "A" "B" "t1" _ rfl

/-- The validation loop collects missing required names and optional warnings
    in order, past any already-accumulated entries. -/
lemma validate_fold_characterization (content : String)
    (sections : List SectionRequirement) (m w : List String) :
    sections.foldl
      (fun (acc : List String × List String) (sec : SectionRequirement) =>
        if testPattern sec.pattern content then acc
        else if sec.required then (acc.1 ++ [sec.name], acc.2)
        else (acc.1, acc.2 ++ ["Optional section missing: " ++ sec.name]))
      (m, w) =
    (m ++ ((sections.filter
        (fun sec => sec.required && !testPattern sec.pattern content)).map
          (fun sec => sec.name)),
     w ++ ((sections.filter
        (fun sec => !sec.required && !testPattern sec.pattern content)).map
          (fun sec => "Optional section missing: " ++ sec.name))) := by
  induction sections generalizing m w with
  | nil => simp
  | cons sec rest ih =>
      by_cases hp : testPattern sec.pattern content
      · simp [hp, ih]
      · by_cases hr : sec.required = true
        · simp [List.foldl_cons, hp, hr, ih]
        · simp [List.foldl_cons, hp, hr, ih]

/-- `missingSections` is exactly the required-but-unmatched names, in table
    order. -/
lemma validateDocument_missing (content : String)
    (sections : List SectionRequirement) :
    (validateDocument content sections).missingSections =
      (sections.filter
        (fun sec => sec.required && !testPattern sec.pattern content)).map
          (fun sec => sec.name) := by
  simp [validateDocument, validate_fold_characterization]

/-- `warnings` is exactly the optional-but-unmatched messages, in table
    order. -/
lemma validateDocument_warnings (content : String)
    (sections : List SectionRequirement) :
    (validateDocument content sections).warnings =
      (sections.filter
        (fun sec => !sec.required && !testPattern sec.pattern content)).map
          (fun sec => "Optional section missing: " ++ sec.name) := by
  simp [validateDocument, validate_fold_characterization]

/-- `valid` is the emptiness of `missingSections`. -/
lemma validateDocument_valid (content : String)
    (sections : List SectionRequirement) :
    (validateDocument content sections).valid =
      ((validateDocument content sections).missingSections.length == 0) := by
  unfold validateDocument
  simp

/-- `validateDocumentByType` dispatches to the section table of the type. -/
lemma validateDocumentByType_eq (t : DocumentType) (content : String) :
    validateDocumentByType t content = validateDocument content (sectionsFor t) := by
  cases t <;> rfl

/-- **C7** — For every document type and text, `validate` reports
`valid = false` iff at least one required section pattern fails to match
anywhere in the text; each required-but-missing section name appears in
`missingSections`; each optional-but-missing section contributes only a
warning and never affects validity; matching is case-insensitive
(`"## APPROACH"` satisfies the `Approach` requirement) and a heading with the
extra word allowed by the pattern (`"## Proposed Approach"`) satisfies the
requirement for `Approach`. -/
theorem validateDocumentByType_policy (t : DocumentType) (content : String) :
    ((validateDocumentByType t content).valid = false ↔
      ∃ sec ∈ sectionsFor t, sec.required = true ∧
        testPattern sec.pattern content = false) ∧
    (∀ sec ∈ sectionsFor t, sec.required = true →
      testPattern sec.pattern content = false →
      sec.name ∈ (validateDocumentByType t content).missingSections) ∧
    ((validateDocumentByType t content).missingSections =
      ((sectionsFor t).filter
        (fun sec => sec.required && !testPattern sec.pattern content)).map
          (fun sec => sec.name)) ∧
    ((validateDocumentByType t content).warnings =
      ((sectionsFor t).filter
        (fun sec => !sec.required && !testPattern sec.pattern content)).map
          (fun sec => "Optional section missing: " ++ sec.name)) ∧
    "Approach" ∉ (validateRfc "## Proposed Approach").missingSections ∧
    "Approach" ∉ (validateRfc "## APPROACH").missingSections ∧
    "Approach" ∈ (validateRfc "## Borrowed Approach idea").missingSections := by
  rw [validateDocumentByType_eq]
  refine ⟨?_, ?_, validateDocument_missing content (sectionsFor t),
    validateDocument_warnings content (sectionsFor t), ?_, ?_, ?_⟩
  · rw [validateDocument_valid, validateDocument_missing]
    simp [List.filter_eq_nil_iff]
  · intro sec hmem hreq hfail
    rw [validateDocument_missing]
    exact List.mem_map_of_mem _ (List.mem_filter.mpr ⟨hmem, by simp [hreq, hfail]⟩)
  · decide
  · decide
  · decide

/-- **C7 witness** — The validation policy instantiated at the RFC table on a
concrete text that misses the `Goals` heading. -/
theorem validateDocumentByType_policy_witness :
    ((validateDocumentByType DocumentType.rfc "## Problem").valid = false ↔
      ∃ sec ∈ sectionsFor DocumentType.rfc, sec.required = true ∧
        testPattern sec.pattern "## Problem" = false) ∧
    (∀ sec ∈ sectionsFor DocumentType.rfc, sec.required = true →
      testPattern sec.pattern "## Problem" = false →
      sec.name ∈ (validateDocumentByType DocumentType.rfc "## Problem").missingSections) ∧
    ((validateDocumentByType DocumentType.rfc "## Problem").missingSections =
      ((sectionsFor DocumentType.rfc).filter
        (fun sec => sec.required && !testPattern sec.pattern "## Problem")).map
          (fun sec => sec.name)) ∧
    ((validateDocumentByType DocumentType.rfc "## Problem").warnings =
      ((sectionsFor DocumentType.rfc).filter
        (fun sec => !sec.required && !testPattern sec.pattern "## Problem")).map
          (fun sec => "Optional section missing: " ++ sec.name)) ∧
    "Approach" ∉ (validateRfc "## Proposed Approach").missingSections ∧
    "Approach" ∉ (validateRfc "## APPROACH").missingSections ∧
    "Approach" ∈ (validateRfc "## Borrowed Approach idea").missingSections :=
  validateDocumentByType_policy DocumentType.rfc "## Problem"

end DocForge
